import Mathlib

/-!
Verification of the biasbouncer multi-agent orchestration core.

This file shallowly embeds the orchestration logic of `streamlit_app.py`
(`determine_companies`, `handle_tool_request`, `generate_response`,
`run_agents`, the sidebar append loop) and the tool layer
(`biasbouncer/tools/file_tools.py`, `biasbouncer/tools/research_tools.py`)
as executable Lean definitions, and proves or refutes the frozen claims
about them.

Conventions of the embedding:
* Python strings are Lean `String`s; the Python string primitives used by the
  source (`split`, `strip`, `lower`, `upper`, `join`, slicing) are re-implemented
  below over `List Char` so that all definitions reduce inside the kernel.
* External effects (the LLM call `chain.run`, `json.loads`, the awaited tool
  coroutines, the DuckDuckGo search) are modelled as oracle functions supplied
  in a context structure; the code under verification is everything the
  repository itself does around those calls.
* Python `dict` (used both for `dict(zip(companies, results))` and for the
  session file store) is modelled as an insertion-ordered association list
  with insert-or-update semantics, matching CPython dict behaviour.
* Raised exceptions are modelled with `Except`; a `try/except` that catches a
  class of exceptions pattern-matches on the corresponding error constructors.
-/

/-- Whitespace predicate of Python `str.strip` (ASCII fragment: space, tab,
newline, carriage return, vertical tab, form feed). -/
def pyIsSpace (c : Char) : Bool :=
  c = ' ' || c = '\t' || c = '\n' || c = '\r' || c = '\x0b' || c = '\x0c'

/-- Python `str.strip()`: drop whitespace from both ends. -/
def pyStrip (s : String) : String :=
  String.mk (((s.data.dropWhile pyIsSpace).reverse.dropWhile pyIsSpace).reverse)

/-- Fuel-driven splitter over character lists; `fuel` is always instantiated
with the length of the list, which makes the recursion structural while
agreeing with Python `str.split(sep)` for a non-empty separator. -/
def pySplitL (sep : List Char) : Nat → List Char → List (List Char)
  | 0, l => [l]
  | _ + 1, [] => [[]]
  | fuel + 1, c :: rest =>
    if sep.isPrefixOf (c :: rest) then
      [] :: pySplitL sep fuel (rest.drop (sep.length - 1))
    else
      match pySplitL sep fuel rest with
      | [] => [[c]]
      | g :: gs => (c :: g) :: gs

/-- Python `s.split(sep)` for a non-empty separator. -/
def pySplit (s sep : String) : List String :=
  if sep.data.isEmpty then [s]
  else (pySplitL sep.data s.data.length s.data).map String.mk

/-- Python `str.lower()` (ASCII fragment). -/
def pyLower (s : String) : String :=
  String.mk (s.data.map Char.toLower)

/-- Python `str.upper()` (ASCII fragment). -/
def pyUpper (s : String) : String :=
  String.mk (s.data.map Char.toUpper)

/-- Python `sep.join(parts)`. -/
def pyJoin (sep : String) (parts : List String) : String :=
  String.mk (List.intercalate sep.data (parts.map String.data))

/-- Index of the first occurrence of `pat` in `l`, if any. -/
def findSub (pat : List Char) : List Char → Option Nat
  | [] => if pat.isEmpty then some 0 else none
  | c :: rest =>
    if pat.isPrefixOf (c :: rest) then some 0
    else (findSub pat rest).map (· + 1)

/-- Substring test (`pat in s` in Python). -/
def hasSubstr (s pat : String) : Bool :=
  (findSub pat.data s.data).isSome

/-- Python `s[-n:]`: the last `n` characters of `s` (or all of `s` if shorter). -/
def pyTakeLast (s : String) (n : Nat) : String :=
  String.mk (s.data.drop (s.data.length - n))

/-- Python `s.replace("\n", " ")` as used by the pdf branch of `write_tool`. -/
def pyReplaceNlSpace (s : String) : String :=
  String.mk (s.data.map (fun c => if c = '\n' then ' ' else c))

/-- Python `c in s` for a single character (used for the tab test in the xlsx
branch of `write_tool`). -/
def pyContainsChar (s : String) (c : Char) : Bool :=
  s.data.any (· = c)

/-!
Insertion-ordered dictionary: the model of a CPython `dict`.  Keys keep the
position of their first insertion; inserting an existing key updates the value
in place; iteration (`items()`) is in insertion order.
-/

/-- Insert-or-update on an insertion-ordered association list: the semantics of
`d[k] = v` on a CPython dict. -/
def pyInsert {α : Type} (d : List (String × α)) (k : String) (v : α) :
    List (String × α) :=
  match d with
  | [] => [(k, v)]
  | (k', v') :: rest =>
    if k' = k then (k, v) :: rest else (k', v') :: pyInsert rest k v

/-- Left fold of `pyInsert` over a pair list starting from `d`. -/
def pyDictFrom {α : Type} (d : List (String × α)) (ps : List (String × α)) :
    List (String × α) :=
  ps.foldl (fun acc p => pyInsert acc p.1 p.2) d

/-- Model of Python `dict(pairs)` (in the source: `dict(zip(companies, results))`);
the resulting association list is also the order of `.items()`. -/
def pyDict {α : Type} (ps : List (String × α)) : List (String × α) :=
  pyDictFrom [] ps

/-- Lookup `d[k]` returning `none` when the key is absent. -/
def pyLookup {α : Type} (d : List (String × α)) (k : String) : Option α :=
  match d with
  | [] => none
  | p :: rest => if p.1 = k then some p.2 else pyLookup rest k

/-- Python `d.get(k, default)`. -/
def pyGetD (d : List (String × String)) (k dflt : String) : String :=
  ((d.find? (fun p => p.1 = k)).map (·.2)).getD dflt

/-!
Embedding of the orchestration core of `streamlit_app.py`.
-/

/-- Post-processing of `determine_companies` (streamlit_app.py lines 48-62): the
LLM call is external and is modelled by its raw text `response`; the source
computes `[item.strip() for item in response.split(",") if item.strip()]`
truncated to `agent_number`. -/
def determine_companies (response : String) (agent_number : Nat) : List String :=
  (((pySplit response ",").map pyStrip).filter (fun s => s ≠ "")).take agent_number

/-- Value inside the parsed JSON tool block: either a JSON string or some other
JSON value carrying its Python `str()` rendering (used by f-strings). -/
inductive PyVal : Type
  | str (s : String)
  | other (repr : String)
deriving DecidableEq

/-- Parsed JSON object: a key/value mapping with string keys. -/
abbrev ToolData : Type := List (String × PyVal)

/-- Result of `json.loads` on the fenced block: a JSON object (dict) or some
other JSON value (list, number, ...), on which `tool_data["tool"]` would raise
`TypeError`. -/
inductive PyParsed : Type
  | obj (td : ToolData)
  | nonObj
deriving DecidableEq

/-- Exception classes relevant to `generate_response`: `json.JSONDecodeError`
and `KeyError` are caught by its `except` clause; `TypeError` is not. -/
inductive PyErr : Type
  | decodeError
  | keyError
  | typeError
deriving DecidableEq

/-- Decidable equality of `Except` values with decidable components. -/
instance {ε α : Type} [DecidableEq ε] [DecidableEq α] : DecidableEq (Except ε α)
  | Except.error e, Except.error f =>
    if h : e = f then isTrue (by rw [h]) else isFalse (fun hc => h (by injection hc))
  | Except.error _, Except.ok _ => isFalse (fun hc => Except.noConfusion hc)
  | Except.ok _, Except.error _ => isFalse (fun hc => Except.noConfusion hc)
  | Except.ok a, Except.ok b =>
    if h : a = b then isTrue (by rw [h]) else isFalse (fun hc => h (by injection hc))

/-- Python `tool_data[k]`: the value, or a raised `KeyError` when absent. -/
def pyGetE (td : ToolData) (k : String) : Except PyErr PyVal :=
  match td.find? (fun p => p.1 = k) with
  | some p => Except.ok p.2
  | none => Except.error PyErr.keyError

/-- Python `str()` of a JSON value as interpolated by the f-strings in
`handle_tool_request`. -/
def pyValStr : PyVal → String
  | PyVal.str s => s
  | PyVal.other r => r

/-- Arguments of one `chain.run` invocation in `generate_response` /
`handle_tool_request` (`all_perspectives` is already joined with `", "` as at
the call sites). -/
structure GenArgs : Type where
  company : String
  user_message : String
  conversation_so_far : String
  all_perspectives : String
deriving DecidableEq

/-- Oracles for the external calls made by the orchestration core: the LLM
(`chain.run`), `json.loads`, and the four awaited tool coroutines.  `loads`
returns `none` on `json.JSONDecodeError`.  The tool functions catch their own
exceptions internally and always return (read_tool/write_tool/research_tool
return strings, scrape_webpage_tool returns a dict), so they are total. -/
structure Ctx : Type where
  model : GenArgs → String
  loads : String → Option PyParsed
  readT : PyVal → String
  writeT : PyVal → PyVal → String
  researchT : PyVal → String
  scrapeT : PyVal → List (String × String)

/-- Control flow of `handle_tool_request` (streamlit_app.py lines 64-96) before
its trailing `chain.run`: the `write` branch returns early, the `read` /
`research` / `scrape_webpage` branches fall through to the re-invocation with
an updated local conversation, the `else` branch returns `None`. -/
inductive HandleBranch : Type
  | early (s : String)
  | cont (conv : String)
  | noTool
deriving DecidableEq

/-- Branch selection of `handle_tool_request`: dictionary accesses may raise
`KeyError`; `updated_conversation` starts as `conversation_so_far` and is
extended locally.  An unknown value of `tool_data["tool"]` (including non-string
values) falls into the `else` branch. -/
def handleBranch (ctx : Ctx) (td : ToolData) (a : GenArgs) :
    Except PyErr HandleBranch := do
  let t ← pyGetE td "tool"
  if t = PyVal.str "read" then
    let fn ← pyGetE td "filename"
    pure (HandleBranch.cont (a.conversation_so_far ++ "\n\n[File '" ++
      pyValStr fn ++ "' content:]\n" ++ ctx.readT fn))
  else if t = PyVal.str "write" then
    let fn ← pyGetE td "filename"
    let c ← pyGetE td "content"
    pure (HandleBranch.early (ctx.writeT fn c))
  else if t = PyVal.str "research" then
    let q ← pyGetE td "query"
    pure (HandleBranch.cont (a.conversation_so_far ++ "\n\n[Research on '" ++
      pyValStr q ++ "':]\n" ++ ctx.researchT q))
  else if t = PyVal.str "scrape_webpage" then
    let u ← pyGetE td "url"
    pure (HandleBranch.cont (a.conversation_so_far ++ "\n\n[Webpage '" ++
      pyValStr u ++ "' info:]\n" ++ pyGetD (ctx.scrapeT u) "content" "No content."))
  else
    pure HandleBranch.noTool

/-- Embedding of `handle_tool_request` (streamlit_app.py lines 64-96).  Returns
the Python return value (`none` models Python `None`) together with the number
of `chain.run` invocations it performed (0 or 1); the `cont` branches re-invoke
the model on the updated local conversation, the other arguments unchanged. -/
def handle_tool_request (ctx : Ctx) (td : ToolData) (a : GenArgs) :
    Except PyErr (Option String × Nat) := do
  match ← handleBranch ctx td a with
  | HandleBranch.early s => pure (some s, 0)
  | HandleBranch.cont updated =>
      pure (some (ctx.model { a with conversation_so_far := updated }), 1)
  | HandleBranch.noTool => pure (none, 0)

/-- Group matched by `re.search(r"(three backticks)json\n(.*?)\n(three backticks)", response, re.DOTALL)`
over the character list: the leftmost position where the opening fence matches
and a closing fence follows yields the shortest enclosed group. -/
def extractBlock : List Char → Option (List Char)
  | [] => none
  | c :: rest =>
    if ("```json\n".data).isPrefixOf (c :: rest) then
      match findSub ("\n```".data) ((c :: rest).drop 8) with
      | some j => some (((c :: rest).drop 8).take j)
      | none => extractBlock rest
    else extractBlock rest

/-- JSON block extraction of `generate_response` (streamlit_app.py line 146). -/
def extractJsonBlock (s : String) : Option String :=
  (extractBlock s.data).map String.mk

/-- Embedding of `generate_response` (streamlit_app.py lines 98-155).  Returns
the Python result (`Except.error` models an uncaught exception escaping the
function) paired with the total number of `chain.run` invocations.  The
`try/except (json.JSONDecodeError, KeyError)` around the parse-and-dispatch
returns the `"Error parsing tool invocation:"` diagnostic; a truthy
`tool_response` is returned as is, otherwise the flow falls through to
`response.strip()`. -/
def generateRun (ctx : Ctx) (a : GenArgs) : Except PyErr String × Nat :=
  let response := ctx.model a
  match extractJsonBlock response with
  | none => (Except.ok (pyStrip response), 1)
  | some block =>
    match (do
        match ctx.loads block with
        | none => Except.error PyErr.decodeError
        | some PyParsed.nonObj => Except.error PyErr.typeError
        | some (PyParsed.obj td) => handle_tool_request ctx td a) with
    | Except.error PyErr.decodeError =>
        (Except.ok ("Error parsing tool invocation:\n" ++ response), 1)
    | Except.error PyErr.keyError =>
        (Except.ok ("Error parsing tool invocation:\n" ++ response), 1)
    | Except.error e => (Except.error e, 1)
    | Except.ok (some t, n) =>
        (if t = "" then Except.ok (pyStrip response) else Except.ok t, 1 + n)
    | Except.ok (none, n) => (Except.ok (pyStrip response), 1 + n)

/-- Return value of `generate_response` alone. -/
def generate_response (ctx : Ctx) (a : GenArgs) : Except PyErr String :=
  (generateRun ctx a).1

/-- Message of the shared transcript `st.session_state["chat_history"]`:
a dict with a `role` (the literal `"user"` or a perspective label) and a
`content` string. -/
structure Msg : Type where
  role : String
  content : String
deriving DecidableEq

/-- Snapshot string built at the top of `run_agents` (streamlit_app.py lines
158-161): newline-joined `"ROLE: content"` lines, truncated to the final 5000
characters when longer. -/
def conversationText (conversation : List Msg) : String :=
  let t := pyJoin "\n" (conversation.map (fun m => pyUpper m.role ++ ": " ++ m.content))
  if t.data.length > 5000 then pyTakeLast t 5000 else t

/-- Model of `asyncio.gather` over the per-perspective coroutines: results are
delivered in task order (gather preserves the order of its argument list,
regardless of completion order); a raised exception propagates and fails the
whole round. -/
def gatherE : List (Except PyErr String) → Except PyErr (List String)
  | [] => Except.ok []
  | x :: xs => do
    let v ← x
    let vs ← gatherE xs
    pure (v :: vs)

/-- Embedding of `run_agents` (streamlit_app.py lines 157-164): one snapshot of
the conversation is taken, one `generate_response` task per company is run over
that same snapshot, and the results are collected as
`dict(zip(companies, results))` (an insertion-ordered dict, so `.items()`
iterates distinct companies in first-occurrence order with the value of the
last occurrence). -/
def run_agents (ctx : Ctx) (companies : List String) (user_message : String)
    (conversation : List Msg) : Except PyErr (List (String × String)) := do
  let results ← gatherE (companies.map (fun c =>
    generate_response ctx ⟨c, user_message, conversationText conversation, pyJoin ", " companies⟩))
  pure (pyDict (companies.zip results))

/-- Shared transcript right after the user's message is appended
(streamlit_app.py line 419). -/
def withUser (history : List Msg) (user_input : String) : List Msg :=
  history ++ [⟨"user", user_input⟩]

/-- Embedding of the sidebar chat round (streamlit_app.py lines 417-438): the
user message is appended to the shared transcript, `run_agents` is called on
the resulting history, and each item of the returned dict is appended to the
shared transcript in iteration order.  The shared transcript is not touched
between those two appends. -/
def sidebarStep (ctx : Ctx) (history : List Msg) (user_input : String)
    (selected : List String) : Except PyErr (List Msg) := do
  let entries ← run_agents ctx selected user_input (withUser history user_input)
  pure (withUser history user_input ++ entries.map (fun p => ⟨p.1, p.2⟩))

/-!
Embedding of `biasbouncer/tools/file_tools.py`.
-/

/-- Contents of a file in the session temp directory, as produced by the
serialization branch of `write_tool` for its extension: raw text (txt/md/py),
the text placed on the single pdf page, the paragraph list of a docx, the cell
rows of an xlsx, or the rows written by `csv.writer`. -/
inductive FileData : Type
  | txtF (s : String)
  | pdfF (s : String)
  | docxF (paragraphs : List String)
  | xlsxF (rows : List (List String))
  | csvF (rows : List (List String))
deriving DecidableEq

/-- Session file store: the per-session temp directory as a mapping from
filename to file contents. -/
abbrev Store : Type := List (String × FileData)

/-- Session temp directory path (in the source, a fresh
`tempfile.mkdtemp(prefix="biasbouncer_")` directory kept in session state;
modelled as an abstract constant, used only inside result messages). -/
def temp_dir : String := "/tmp/biasbouncer_session"

/-- Python `filename.lower().split('.')[-1]` (file_tools.py lines 33, 99). -/
def fileExt (filename : String) : String :=
  (pySplit (pyLower filename) ".").getLastD ""

/-- Success message of `write_tool` (file_tools.py line 85);
`temp_file_path = os.path.join(temp_dir, filename)`. -/
def writeSuccessMsg (filename : String) : String :=
  "✅ Successfully wrote to '" ++ temp_dir ++ "/" ++ filename ++ "'."

/-- Row splitter of the xlsx branch of `write_tool` (file_tools.py line 69):
tab-separated if the line contains a tab, else comma-separated. -/
def xlsxRow (line : String) : List String :=
  if pyContainsChar line '\t' then pySplit line "\t" else pySplit line ","

/-- Embedding of `write_tool` (file_tools.py lines 27-88).  Every supported
branch opens the target with mode `"w"` (or `doc.save` / `wb.save`), replacing
any previous contents; the store update is therefore `pyInsert`.  Returns the
updated store and the result string.  The `st.session_state["file_updated"]`
flag and I/O exceptions of the external writer libraries are outside the
model. -/
def write_tool (fs : Store) (filename content : String) : Store × String :=
  let ext := fileExt filename
  if ext = "txt" || ext = "md" || ext = "py" then
    (pyInsert fs filename (FileData.txtF content), writeSuccessMsg filename)
  else if ext = "pdf" then
    (pyInsert fs filename (FileData.pdfF (pyReplaceNlSpace content)),
      writeSuccessMsg filename)
  else if ext = "docx" then
    (pyInsert fs filename (FileData.docxF (pySplit content "\n")),
      writeSuccessMsg filename)
  else if ext = "xlsx" then
    (pyInsert fs filename (FileData.xlsxF ((pySplit content "\n").map xlsxRow)),
      writeSuccessMsg filename)
  else if ext = "csv" then
    (pyInsert fs filename (FileData.csvF ((pySplit content "\n").map (fun l => pySplit l ","))),
      writeSuccessMsg filename)
  else
    (fs, "Error: Unsupported file type '" ++ ext ++
      "'. Supported formats: TXT, PDF, DOCX, XLSX.")

/-- External readers used by `read_tool`: the fitz text extraction of a saved
pdf page given the inserted text, and the pandas `df.head().to_string(index=False)`
rendering of an xlsx sheet given its rows. -/
structure ReadExt : Type where
  fitzText : String → String
  pandasHead : List (List String) → String

/-- Embedding of `read_tool` (file_tools.py lines 90-135).  The txt/md/py
branches execute `await file.read(content)` where the local name `content` is
unbound, raising `NameError: name 'content' is not defined`, which the blanket
`except Exception` converts into an error string.  The other branches delegate
to the per-format readers.  Combinations of extension and stored data that
`write_tool` cannot produce (and the `.json` read path, whose files `write_tool`
cannot create) are modelled by a fixed error string. -/
def read_tool (re : ReadExt) (fs : Store) (filename : String) : String :=
  match pyLookup fs filename with
  | none => "Error: Temporary file '" ++ filename ++ "' does not exist."
  | some fd =>
    let ext := fileExt filename
    if ext = "txt" || ext = "md" || ext = "py" then
      "Error reading from file: name 'content' is not defined"
    else if ext = "pdf" then
      match fd with
      | FileData.pdfF s =>
        let text := re.fitzText s
        if text = "" then "Warning: No text found in the PDF." else text
      | _ => "Error reading from file: [unreachable via write_tool]"
    else if ext = "csv" then
      match fd with
      | FileData.csvF rows => pyJoin "\n" (rows.map (fun row => pyJoin ", " row))
      | _ => "Error reading from file: [unreachable via write_tool]"
    else if ext = "xls" || ext = "xlsx" then
      match fd with
      | FileData.xlsxF rows => re.pandasHead rows
      | _ => "Error reading from file: [unreachable via write_tool]"
    else if ext = "docx" then
      match fd with
      | FileData.docxF ps =>
        let text := pyJoin "\n" ps
        if text = "" then "Warning: No text found in the DOCX file." else text
      | _ => "Error reading from file: [unreachable via write_tool]"
    else if ext = "json" then
      "Error reading from file: [unreachable via write_tool]"
    else
      "Error: Unsupported file type '" ++ ext ++ "'."

/-!
Embedding of `biasbouncer/tools/research_tools.py`.
-/

/-- One invocation of the external DuckDuckGo search
(`search_tool.invoke(query)`): its wall-clock duration in seconds and its
outcome (`Except.error` models a raised exception with its message). -/
structure SearchCall : Type where
  elapsed : Nat
  outcome : Except String String

/-- Embedding of `research_tool` (research_tools.py lines 9-18): the search is
invoked directly with no timeout of any kind (the duration of the backing call
is never inspected); exceptions are converted into an error string.  The
`st.spinner` wrapper is UI only. -/
def research_tool (backing : String → SearchCall) (query : String) : String :=
  match (backing query).outcome with
  | Except.ok results => results
  | Except.error e => "Error fetching search results: " ++ e

/-!
Concrete contexts used by the witnesses and counterexamples below.
-/

/-- Context whose model never emits a tool block. -/
def ctxPlain : Ctx where
  model := fun a => "resp-" ++ a.company
  loads := fun _ => none
  readT := fun _ => ""
  writeT := fun _ _ => ""
  researchT := fun _ => ""
  scrapeT := fun _ => []

/-- Raw JSON object text of a well-formed `research` tool block. -/
def researchBlock : String := "\x7b\"tool\": \"research\", \"query\": \"q\"\x7d"

/-- Model response that always embeds a well-formed `research` tool request. -/
def loopResponse : String :=
  "I will research. ```json\n" ++ researchBlock ++ "\n``` end"

/-- Context whose model always answers with `loopResponse`, so every generated
response embeds another tool request. -/
def ctxLoop : Ctx where
  model := fun _ => loopResponse
  loads := fun s =>
    if s = researchBlock then
      some (PyParsed.obj [("tool", PyVal.str "research"), ("query", PyVal.str "q")])
    else none
  readT := fun _ => ""
  writeT := fun _ _ => ""
  researchT := fun _ => "R"
  scrapeT := fun _ => []

/-- Fixed generation arguments used by concrete instantiations. -/
def args0 : GenArgs := ⟨"p1", "hi", "USER: hi", "p1, p2"⟩

/-- Raw JSON object text of a `read` block missing its `filename` field. -/
def badReadBlock : String := "\x7b\"tool\": \"read\"\x7d"

/-- Model response embedding the malformed `read` block. -/
def badReadResponse : String := "Let me read. ```json\n" ++ badReadBlock ++ "\n``` ok"

/-- Context whose model answers with the malformed `read` request. -/
def ctxBadRead : Ctx where
  model := fun _ => badReadResponse
  loads := fun s =>
    if s = badReadBlock then some (PyParsed.obj [("tool", PyVal.str "read")])
    else none
  readT := fun _ => ""
  writeT := fun _ _ => ""
  researchT := fun _ => ""
  scrapeT := fun _ => []

/-- Raw JSON object text of a block naming an unknown tool. -/
def unknownBlock : String := "\x7b\"tool\": \"frobnicate\"\x7d"

/-- Model response embedding the unknown-tool block. -/
def unknownResponse : String :=
  "Hmm. ```json\n" ++ unknownBlock ++ "\n``` done"

/-- Context whose model answers with the unknown-tool request. -/
def ctxUnknown : Ctx where
  model := fun _ => unknownResponse
  loads := fun s =>
    if s = unknownBlock then some (PyParsed.obj [("tool", PyVal.str "frobnicate")])
    else none
  readT := fun _ => ""
  writeT := fun _ _ => ""
  researchT := fun _ => ""
  scrapeT := fun _ => []

/-- Dummy external readers for concrete file-tool evaluations. -/
def reDummy : ReadExt where
  fitzText := fun s => s
  pandasHead := fun _ => ""

/-- Predicate on a parsed tool-call object: a required field of its declared
tool is missing (including the `tool` field itself), which makes the dictionary
access in `handle_tool_request` raise `KeyError`. -/
def missingRequiredField (td : ToolData) : Prop :=
  pyGetE td "tool" = Except.error PyErr.keyError ∨
  (pyGetE td "tool" = Except.ok (PyVal.str "read") ∧
    pyGetE td "filename" = Except.error PyErr.keyError) ∨
  (pyGetE td "tool" = Except.ok (PyVal.str "write") ∧
    (pyGetE td "filename" = Except.error PyErr.keyError ∨
     pyGetE td "content" = Except.error PyErr.keyError)) ∨
  (pyGetE td "tool" = Except.ok (PyVal.str "research") ∧
    pyGetE td "query" = Except.error PyErr.keyError) ∨
  (pyGetE td "tool" = Except.ok (PyVal.str "scrape_webpage") ∧
    pyGetE td "url" = Except.error PyErr.keyError)

/-!
Lemmas about the dictionary model.
-/

theorem pyLookup_pyInsert {α : Type} (d : List (String × α)) (k k' : String) (v : α) :
    pyLookup (pyInsert d k v) k' = if k' = k then some v else pyLookup d k' := by
  induction d with
  | nil =>
    by_cases h : k' = k
    · simp [pyInsert, pyLookup, h]
    · have h' : ¬ k = k' := fun he => h he.symm
      simp [pyInsert, pyLookup, h, h']
  | cons p rest ih =>
    by_cases hp : p.1 = k
    · by_cases h : k' = k
      · simp [pyInsert, pyLookup, hp, h]
      · have h' : ¬ k = k' := fun he => h he.symm
        have hp' : ¬ p.1 = k' := by rw [hp]; exact h'
        simp [pyInsert, pyLookup, hp, h, h', hp']
    · by_cases hq : p.1 = k'
      · have hk : ¬ k' = k := fun he => hp (by rw [hq, he])
        simp [pyInsert, pyLookup, hp, hq, hk]
      · simp [pyInsert, pyLookup, hp, hq, ih]

theorem mem_pyInsert {α : Type} {d : List (String × α)} {k : String} {v : α}
    {p : String × α} (h : p ∈ pyInsert d k v) : p ∈ d ∨ p = (k, v) := by
  induction d with
  | nil => simpa [pyInsert] using h
  | cons q rest ih =>
    by_cases hq : q.1 = k
    · simp [pyInsert, hq] at h
      rcases h with h | h
      · exact Or.inr h
      · exact Or.inl (List.mem_cons_of_mem _ h)
    · simp [pyInsert, hq] at h
      rcases h with h | h
      · exact Or.inl (by simp [h])
      · rcases ih h with h' | h'
        · exact Or.inl (List.mem_cons_of_mem _ h')
        · exact Or.inr h'

theorem keys_pyInsert {α : Type} (d : List (String × α)) (k : String) (v : α) :
    (pyInsert d k v).map Prod.fst =
      if k ∈ d.map Prod.fst then d.map Prod.fst else d.map Prod.fst ++ [k] := by
  induction d with
  | nil => simp [pyInsert]
  | cons q rest ih =>
    by_cases hq : q.1 = k
    · simp [pyInsert, hq]
    · have : ¬ k = q.1 := fun he => hq he.symm
      by_cases hk : k ∈ rest.map Prod.fst <;>
        simp [pyInsert, hq, hk, this, ih]

theorem pyInsert_of_not_mem {α : Type} {d : List (String × α)} {k : String}
    (v : α) (h : k ∉ d.map Prod.fst) : pyInsert d k v = d ++ [(k, v)] := by
  induction d with
  | nil => simp [pyInsert]
  | cons q rest ih =>
    rw [List.map_cons, List.mem_cons] at h
    push_neg at h
    have hq : ¬ q.1 = k := fun he => h.1 he.symm
    simp [pyInsert, hq, ih h.2]

theorem mem_pyDictFrom {α : Type} {p : String × α} :
    ∀ (ps d : List (String × α)), p ∈ pyDictFrom d ps → p ∈ d ∨ p ∈ ps := by
  intro ps
  induction ps with
  | nil => intro d h; exact Or.inl (by simpa [pyDictFrom] using h)
  | cons q rest ih =>
    intro d h
    have h' := ih (pyInsert d q.1 q.2) (by simpa [pyDictFrom] using h)
    rcases h' with h' | h'
    · rcases mem_pyInsert h' with h'' | h''
      · exact Or.inl h''
      · exact Or.inr (by simp [h''])
    · exact Or.inr (List.mem_cons_of_mem _ h')

theorem mem_keys_pyDictFrom {α : Type} (k : String) :
    ∀ (ps d : List (String × α)),
      (k ∈ (pyDictFrom d ps).map Prod.fst ↔ k ∈ d.map Prod.fst ∨ k ∈ ps.map Prod.fst) := by
  intro ps
  induction ps with
  | nil => intro d; simp [pyDictFrom]
  | cons q rest ih =>
    intro d
    have step : pyDictFrom d (q :: rest) = pyDictFrom (pyInsert d q.1 q.2) rest := by
      simp [pyDictFrom]
    rw [step, ih, keys_pyInsert]
    by_cases hq : q.1 ∈ d.map Prod.fst
    · rw [if_pos hq]
      simp only [List.map_cons, List.mem_cons]
      constructor
      · rintro (h | h)
        · exact Or.inl h
        · exact Or.inr (Or.inr h)
      · rintro (h | h | h)
        · exact Or.inl h
        · exact Or.inl (h ▸ hq)
        · exact Or.inr h
    · rw [if_neg hq]
      simp only [List.map_cons, List.mem_cons, List.mem_append, List.mem_singleton,
        List.not_mem_nil, or_false]
      constructor
      · rintro ((h | h) | h)
        · exact Or.inl h
        · exact Or.inr (Or.inl h)
        · exact Or.inr (Or.inr h)
      · rintro (h | h | h)
        · exact Or.inl (Or.inl h)
        · exact Or.inl (Or.inr h)
        · exact Or.inr h

theorem keys_nodup_pyDictFrom {α : Type} :
    ∀ (ps d : List (String × α)), (d.map Prod.fst).Nodup →
      ((pyDictFrom d ps).map Prod.fst).Nodup := by
  intro ps
  induction ps with
  | nil => intro d h; simpa [pyDictFrom] using h
  | cons q rest ih =>
    intro d hd
    have step : pyDictFrom d (q :: rest) = pyDictFrom (pyInsert d q.1 q.2) rest := by
      simp [pyDictFrom]
    rw [step]
    apply ih
    rw [keys_pyInsert]
    by_cases hq : q.1 ∈ d.map Prod.fst
    · simpa [hq] using hd
    · simp only [if_neg hq]
      simpa [List.nodup_append, hq] using hd

theorem pyDictFrom_of_disjoint {α : Type} :
    ∀ (ps d : List (String × α)), (ps.map Prod.fst).Nodup →
      (∀ k ∈ ps.map Prod.fst, k ∉ d.map Prod.fst) →
      pyDictFrom d ps = d ++ ps := by
  intro ps
  induction ps with
  | nil => intro d _ _; simp [pyDictFrom]
  | cons q rest ih =>
    intro d hnd hdisj
    have step : pyDictFrom d (q :: rest) = pyDictFrom (pyInsert d q.1 q.2) rest := by
      simp [pyDictFrom]
    have hq : q.1 ∉ d.map Prod.fst := hdisj q.1 (by simp)
    rw [step, pyInsert_of_not_mem q.2 hq]
    have hnd' : (rest.map Prod.fst).Nodup := (List.nodup_cons.mp (by simpa using hnd)).2
    have hq' : q.1 ∉ rest.map Prod.fst := (List.nodup_cons.mp (by simpa using hnd)).1
    rw [ih (d ++ [(q.1, q.2)]) hnd']
    · simp
    · intro k hk
      simp only [List.map_append, List.mem_append] at *
      rintro (h | h)
      · exact hdisj k (by simp [hk]) h
      · simp at h
        exact hq' (h ▸ hk)

theorem mem_pyDict {α : Type} {p : String × α} {ps : List (String × α)}
    (h : p ∈ pyDict ps) : p ∈ ps := by
  rcases mem_pyDictFrom ps [] h with h' | h'
  · simp at h'
  · exact h'

theorem keys_pyDict_nodup {α : Type} (ps : List (String × α)) :
    ((pyDict ps).map Prod.fst).Nodup :=
  keys_nodup_pyDictFrom ps [] (by simp)

theorem mem_keys_pyDict {α : Type} (k : String) (ps : List (String × α)) :
    k ∈ (pyDict ps).map Prod.fst ↔ k ∈ ps.map Prod.fst := by
  simpa using mem_keys_pyDictFrom k ps []

theorem pyDict_of_nodup {α : Type} (ps : List (String × α))
    (h : (ps.map Prod.fst).Nodup) : pyDict ps = ps := by
  simpa using pyDictFrom_of_disjoint ps [] h (by simp)

theorem length_pyDict {α : Type} (ps : List (String × α)) :
    (pyDict ps).length = (ps.map Prod.fst).dedup.length := by
  have h1 : (pyDict ps).length = ((pyDict ps).map Prod.fst).length := by simp
  have h2 : ((pyDict ps).map Prod.fst).toFinset = (ps.map Prod.fst).toFinset := by
    ext k
    simp only [List.mem_toFinset]
    exact mem_keys_pyDict k ps
  have h3 : ((pyDict ps).map Prod.fst).toFinset.card = ((pyDict ps).map Prod.fst).length :=
    List.toFinset_card_of_nodup (keys_pyDict_nodup ps)
  rw [h1, ← h3, h2]
  exact List.card_toFinset _

theorem dedup_length_lt_of_not_nodup {l : List String} (h : ¬ l.Nodup) :
    l.dedup.length < l.length := by
  rcases Nat.lt_or_ge l.dedup.length l.length with hlt | hge
  · exact hlt
  · exfalso
    have hsub : List.Sublist l.dedup l := List.dedup_sublist l
    have hle : l.dedup.length ≤ l.length := hsub.length_le
    have heq : l.dedup.length = l.length := Nat.le_antisymm hle hge
    have : l.dedup = l := hsub.eq_of_length heq
    exact h (this ▸ List.nodup_dedup l)

/-!
Lemmas about `gatherE` and zipped results.
-/

theorem gatherE_ok : ∀ {l : List (Except PyErr String)} {rs : List String},
    gatherE l = Except.ok rs → l = rs.map Except.ok := by
  intro l
  induction l with
  | nil =>
    intro rs h
    simp [gatherE, pure, Except.pure] at h
    simp [← h]
  | cons x xs ih =>
    intro rs h
    cases x with
    | error e => simp [gatherE, bind, Except.bind] at h
    | ok v =>
      cases hg : gatherE xs with
      | error e => simp [gatherE, bind, Except.bind, hg] at h
      | ok vs =>
        simp [gatherE, bind, Except.bind, hg, pure, Except.pure] at h
        subst h
        simp [ih hg]

theorem zip_of_map_eq_map_ok {α β : Type} (f : α → Except PyErr β) :
    ∀ (cs : List α) (rs : List β), cs.map f = rs.map Except.ok →
      ∀ p ∈ cs.zip rs, f p.1 = Except.ok p.2 := by
  intro cs
  induction cs with
  | nil => intro rs _ p hp; simp at hp
  | cons c cs' ih =>
    intro rs h p hp
    cases rs with
    | nil => simp at h
    | cons r rs' =>
      simp only [List.map_cons, List.cons.injEq] at h
      simp only [List.zip_cons_cons, List.mem_cons] at hp
      rcases hp with hp | hp
      · rw [hp]; exact h.1
      · exact ih rs' h.2 p hp

theorem length_of_map_eq_map_ok {α β : Type} (f : α → Except PyErr β)
    (cs : List α) (rs : List β) (h : cs.map f = rs.map Except.ok) :
    cs.length = rs.length := by
  have := congrArg List.length h
  simpa using this

/-!
Lemma about `pyStrip`: a non-empty stripped string contains a
non-whitespace character.
-/

theorem exists_not_of_dropWhile_ne_nil {α : Type} (p : α → Bool) :
    ∀ l : List α, l.dropWhile p ≠ [] → ∃ c ∈ l.dropWhile p, p c = false := by
  intro l
  induction l with
  | nil => intro h; simp [List.dropWhile] at h
  | cons a l' ih =>
    intro h
    cases hpa : p a
    · refine ⟨a, ?_, hpa⟩
      simp [List.dropWhile, hpa]
    · rw [List.dropWhile_cons_of_pos hpa] at h ⊢
      exact ih h

theorem pyStrip_has_non_space (s : String) (h : pyStrip s ≠ "") :
    ∃ c ∈ (pyStrip s).data, pyIsSpace c = false := by
  unfold pyStrip at h ⊢
  set l2 := (s.data.dropWhile pyIsSpace).reverse.dropWhile pyIsSpace with hl2
  have hne : l2 ≠ [] := by
    intro hcon
    apply h
    rw [hcon]
    rfl
  rcases exists_not_of_dropWhile_ne_nil pyIsSpace (s.data.dropWhile pyIsSpace).reverse hne
    with ⟨c, hc, hcp⟩
  exact ⟨c, by simpa using hc, hcp⟩

/-!
Lemmas about `handleBranch` and `handle_tool_request`.
-/

theorem pyGetE_error_eq {td : ToolData} {k : String} {e : PyErr}
    (h : pyGetE td k = Except.error e) : e = PyErr.keyError := by
  unfold pyGetE at h
  cases hf : td.find? (fun p => p.1 = k) with
  | none =>
    rw [hf] at h
    injection h with h'
    exact h'.symm
  | some p => rw [hf] at h; simp at h

theorem handle_tool_request_calls_le (ctx : Ctx) (td : ToolData) (a : GenArgs)
    {r : Option String} {n : Nat} (h : handle_tool_request ctx td a = Except.ok (r, n)) :
    n ≤ 1 := by
  unfold handle_tool_request at h
  cases hb : handleBranch ctx td a with
  | error e => rw [hb] at h; simp [bind, Except.bind] at h
  | ok b =>
    rw [hb] at h
    cases b <;> simp [bind, Except.bind, pure, Except.pure] at h <;> omega

/-- C1 (amended): for every model oracle and every generation, `generate_response`
performs at most one tool dispatch and one re-invocation — at most two
`chain.run` calls in total — and therefore always terminates; there is no
tool-dispatch loop at all, hence no iteration counter and no capped-loop note. -/
theorem c1_generation_at_most_two_model_calls (ctx : Ctx) (a : GenArgs) :
    (generateRun ctx a).2 ≤ 2 := by
  simp only [generateRun]
  cases hx : extractJsonBlock (ctx.model a) with
  | none => simp
  | some block =>
    cases hl : ctx.loads block with
    | none => simp [hl]
    | some p =>
      cases p with
      | nonObj => simp [hl]
      | obj td =>
        cases hh : handle_tool_request ctx td a with
        | error e => cases e <;> simp [hl, hh]
        | ok pr =>
          obtain ⟨r, n⟩ := pr
          have hn := handle_tool_request_calls_le ctx td a hh
          cases r with
          | none => simp [hl, hh]; omega
          | some t =>
            by_cases ht : t = "" <;> simp [hl, hh, ht] <;> omega

/-- C1 counterexample to the claim as stated: with a model that always embeds a
well-formed `research` tool request, generation returns the re-invoked model
response verbatim — a text that itself still embeds a tool request — after
exactly two model calls; no capped-loop note of any form is attached (the
output is exactly the model text, which does not even contain the word
"capped"). -/
theorem c1_counterexample_no_cap_note :
    generateRun ctxLoop args0 = (Except.ok loopResponse, 2) ∧
    (extractJsonBlock loopResponse).isSome = true ∧
    hasSubstr (pyLower loopResponse) "capped" = false :=
  ⟨rfl, by decide, by decide⟩

/-- Dispatch over a tool-call object with a missing required field raises
`KeyError`. -/
theorem handleBranch_keyError_of_missing (ctx : Ctx) (td : ToolData) (a : GenArgs)
    (h : missingRequiredField td) :
    handleBranch ctx td a = Except.error PyErr.keyError := by
  unfold handleBranch
  rcases h with h | ⟨ht, hf⟩ | ⟨ht, hf⟩ | ⟨ht, hf⟩ | ⟨ht, hf⟩
  · simp [h, bind, Except.bind]
  · simp [ht, hf, bind, Except.bind]
  · rcases hf with hf | hf
    · simp [ht, hf, bind, Except.bind]
    · cases hfn : pyGetE td "filename" with
      | error e =>
        have he := pyGetE_error_eq hfn
        subst he
        simp [ht, hfn, bind, Except.bind]
      | ok fn => simp [ht, hfn, hf, bind, Except.bind]
  · simp [ht, hf, bind, Except.bind]
  · simp [ht, hf, bind, Except.bind]

/-- C4: when the model response carries a fenced json block that either fails
to parse (`json.JSONDecodeError`) or parses to an object with a required field
of its declared tool missing (`KeyError`), `generate_response` terminates
normally — no exception escapes — and returns the diagnostic string naming the
parse failure followed by the original response text. -/
theorem c4_malformed_block_yields_diagnostic (ctx : Ctx) (a : GenArgs)
    (block : String) (hx : extractJsonBlock (ctx.model a) = some block)
    (hbad : ctx.loads block = none ∨
      ∃ td, ctx.loads block = some (PyParsed.obj td) ∧ missingRequiredField td) :
    generate_response ctx a =
      Except.ok ("Error parsing tool invocation:\n" ++ ctx.model a) := by
  unfold generate_response
  simp only [generateRun]
  rw [hx]
  rcases hbad with hl | ⟨td, hl, hmiss⟩
  · simp [hl]
  · have hb := handleBranch_keyError_of_missing ctx td a hmiss
    have hh : handle_tool_request ctx td a = Except.error PyErr.keyError := by
      unfold handle_tool_request
      rw [hb]
      rfl
    simp [hl, hh]

/-- C4 witness: a concrete model response whose fenced block declares `read`
but omits `filename` produces the diagnostic with the original text. -/
theorem c4_witness :
    extractJsonBlock (ctxBadRead.model args0) = some badReadBlock ∧
    (ctxBadRead.loads badReadBlock = some (PyParsed.obj [("tool", PyVal.str "read")]) ∧
      missingRequiredField [("tool", PyVal.str "read")]) ∧
    generate_response ctxBadRead args0 =
      Except.ok ("Error parsing tool invocation:\n" ++ ctxBadRead.model args0) :=
  ⟨by decide,
   ⟨by decide, Or.inr (Or.inl ⟨by decide, by decide⟩)⟩,
   c4_malformed_block_yields_diagnostic ctxBadRead args0 badReadBlock (by decide)
     (Or.inr ⟨[("tool", PyVal.str "read")], by decide,
       Or.inr (Or.inl ⟨by decide, by decide⟩)⟩)⟩

/-- C6 (amended): a parsed tool-call object whose `tool` field holds any value
other than `"read"`, `"write"`, `"research"` or `"scrape_webpage"` makes
`handle_tool_request` return `None`, so `generate_response` returns the
original response trimmed — the unknown tool is silently ignored, with no
malformed-call diagnostic. -/
theorem c6_unknown_tool_silently_ignored (ctx : Ctx) (a : GenArgs)
    (block : String) (td : ToolData) (t : PyVal)
    (hx : extractJsonBlock (ctx.model a) = some block)
    (hl : ctx.loads block = some (PyParsed.obj td))
    (ht : pyGetE td "tool" = Except.ok t)
    (h1 : t ≠ PyVal.str "read") (h2 : t ≠ PyVal.str "write")
    (h3 : t ≠ PyVal.str "research") (h4 : t ≠ PyVal.str "scrape_webpage") :
    generate_response ctx a = Except.ok (pyStrip (ctx.model a)) := by
  have hb : handleBranch ctx td a = Except.ok HandleBranch.noTool := by
    unfold handleBranch
    simp [ht, bind, Except.bind, pure, Except.pure, h1, h2, h3, h4]
  have hh : handle_tool_request ctx td a = Except.ok (none, 0) := by
    unfold handle_tool_request
    rw [hb]
    rfl
  unfold generate_response
  simp only [generateRun]
  rw [hx]
  simp [hl, hh]

/-- C6 counterexample to the claim as stated: a block declaring the unknown
tool `"frobnicate"` is not rejected as malformed; `generate_response` returns
the original response (which is already stripped), exactly as if no tool call
were present, and the output contains no parse-failure diagnostic. -/
theorem c6_counterexample_unknown_tool_not_rejected :
    generate_response ctxUnknown args0 = Except.ok unknownResponse ∧
    pyStrip unknownResponse = unknownResponse ∧
    hasSubstr unknownResponse "Error parsing tool invocation" = false :=
  ⟨rfl, by decide, by decide⟩

/-- C6 witness for the amended statement, at the same concrete input. -/
theorem c6_witness :
    extractJsonBlock (ctxUnknown.model args0) = some unknownBlock ∧
    ctxUnknown.loads unknownBlock = some (PyParsed.obj [("tool", PyVal.str "frobnicate")]) ∧
    pyGetE [("tool", PyVal.str "frobnicate")] "tool" = Except.ok (PyVal.str "frobnicate") ∧
    generate_response ctxUnknown args0 = Except.ok (pyStrip (ctxUnknown.model args0)) :=
  ⟨by decide, by decide, by decide,
   c6_unknown_tool_silently_ignored ctxUnknown args0 unknownBlock
     [("tool", PyVal.str "frobnicate")] (PyVal.str "frobnicate")
     (by decide) (by decide) (by decide)
     (by decide) (by decide) (by decide) (by decide)⟩

/-- C3 (amended): for every raw model response and every requested count
N ≥ 1, the derived perspective list has length at most N and contains no empty
and no whitespace-only entry (every entry contains a non-whitespace character);
it is obtained by splitting on commas, trimming, discarding empty tokens and
truncating to N.  Duplicates are not removed. -/
theorem c3_derived_perspectives_shape (response : String) (N : Nat) (_hN : 1 ≤ N) :
    (determine_companies response N).length ≤ N ∧
    ∀ s ∈ determine_companies response N,
      s ≠ "" ∧ ∃ c ∈ s.data, pyIsSpace c = false := by
  constructor
  · exact List.length_take_le N _
  · intro s hs
    have hs' : s ∈ ((pySplit response ",").map pyStrip).filter (fun x => x ≠ "") :=
      List.take_subset _ _ hs
    have hne : s ≠ "" := by
      have := List.of_mem_filter hs'
      simpa using this
    have hmem : s ∈ (pySplit response ",").map pyStrip := List.mem_of_mem_filter hs'
    rcases List.mem_map.mp hmem with ⟨t, _, ht⟩
    exact ⟨hne, ht ▸ pyStrip_has_non_space t (ht ▸ hne)⟩

/-- C3 witness at a concrete input with the user's own enumeration. -/
theorem c3_witness :
    1 ≤ 2 ∧
    ((determine_companies " red , blue" 2).length ≤ 2 ∧
      ∀ s ∈ determine_companies " red , blue" 2,
        s ≠ "" ∧ ∃ c ∈ s.data, pyIsSpace c = false) :=
  ⟨by decide, c3_derived_perspectives_shape " red , blue" 2 (by decide)⟩

/-- C3 counterexample to the claim as stated: the raw response `"a,a"` with
requested count 2 yields `["a", "a"]`, which contains a duplicate —
`determine_companies` performs no deduplication. -/
theorem c3_counterexample_duplicates_kept :
    determine_companies "a,a" 2 = ["a", "a"] ∧
    ¬ (determine_companies "a,a" 2).Nodup :=
  ⟨by decide, by decide⟩

/-- C8 (amended): `research_tool` applies no timeout whatsoever — its result
depends only on the outcome of the backing search call and never on its
duration; a raised exception is converted into the
`"Error fetching search results: "` string, and a successful result is
returned verbatim however long the call took. -/
theorem c8_research_ignores_duration (b₁ b₂ : String → SearchCall) (q : String)
    (h : (b₁ q).outcome = (b₂ q).outcome) :
    research_tool b₁ q = research_tool b₂ q := by
  unfold research_tool
  rw [h]

/-- C8 witness: a backing call that takes 11 seconds produces exactly the same
output as one that takes 0 seconds. -/
theorem c8_witness :
    ((fun (_ : String) => SearchCall.mk 11 (Except.ok "r")) "q").outcome =
      ((fun (_ : String) => SearchCall.mk 0 (Except.ok "r")) "q").outcome ∧
    research_tool (fun _ => SearchCall.mk 11 (Except.ok "r")) "q" =
      research_tool (fun _ => SearchCall.mk 0 (Except.ok "r")) "q" :=
  ⟨rfl, c8_research_ignores_duration (fun _ => SearchCall.mk 11 (Except.ok "r"))
    (fun _ => SearchCall.mk 0 (Except.ok "r")) "q" rfl⟩

/-- C8 counterexample to the claim as stated: a backing search that takes 11
seconds (exceeding the claimed 10-second timeout) and then succeeds is passed
through verbatim; the output is the success payload and contains no timeout
marker of any kind. -/
theorem c8_counterexample_no_timeout :
    research_tool (fun _ => SearchCall.mk 11 (Except.ok "search results")) "query" =
      "search results" ∧
    hasSubstr (pyLower "search results") "timeout" = false :=
  ⟨rfl, by decide⟩

/-- C9 (amended): for every filename with a supported extension, `write_tool`
returns the success descriptor, the file exists afterwards (created when
absent), and writing is last-write-wins: writing `c₂` over a previous write of
`c₁` leaves exactly the state of writing `c₂` alone — contents are replaced,
never appended. -/
theorem c9_write_overwrites (fs : Store) (f c₁ c₂ : String)
    (h : fileExt f ∈ (["txt", "md", "py", "pdf", "docx", "xlsx", "csv"] : List String)) :
    (write_tool fs f c₁).2 = writeSuccessMsg f ∧
    (pyLookup (write_tool fs f c₁).1 f).isSome = true ∧
    pyLookup (write_tool (write_tool fs f c₁).1 f c₂).1 f =
      pyLookup (write_tool fs f c₂).1 f := by
  simp only [List.mem_cons, List.mem_singleton, List.not_mem_nil, or_false] at h
  rcases h with h | h | h | h | h | h | h <;>
    simp [write_tool, h, pyLookup_pyInsert]

/-- C9 witness at a concrete txt file. -/
theorem c9_witness :
    fileExt "f.txt" ∈ (["txt", "md", "py", "pdf", "docx", "xlsx", "csv"] : List String) ∧
    ((write_tool [] "f.txt" "a").2 = writeSuccessMsg "f.txt" ∧
      (pyLookup (write_tool [] "f.txt" "a").1 "f.txt").isSome = true ∧
      pyLookup (write_tool (write_tool [] "f.txt" "a").1 "f.txt" "b").1 "f.txt" =
        pyLookup (write_tool [] "f.txt" "b").1 "f.txt") :=
  ⟨by decide, c9_write_overwrites [] "f.txt" "a" "b" (by decide)⟩

/-- C9 counterexample to the claim as stated: writing `"a"` and then `"b"` to
the same txt file leaves the file holding `"b"`, not the accumulated
`"a" ++ "b"` — the second write replaced the first instead of appending. -/
theorem c9_counterexample_no_append :
    pyLookup (write_tool (write_tool [] "f.txt" "a").1 "f.txt" "b").1 "f.txt" =
      some (FileData.txtF "b") ∧
    FileData.txtF "b" ≠ FileData.txtF ("a" ++ "b") :=
  ⟨by decide, by decide⟩

/-- C5 (code bug): the txt/md/py read path references the unbound local name
`content` (`await file.read(content)` in file_tools.py line 103), so reading
back any freshly written text file yields the caught `NameError` message
instead of the written content; the declared csv round-trip, by contrast,
behaves as specified: writing `"a,b\nc,d"` as csv and reading it back renders
the rows `["a","b"]` and `["c","d"]`. -/
theorem c5_roundtrip_txt_bug_csv_ok :
    read_tool reDummy (write_tool [] "notes.txt" "hello").1 "notes.txt" =
      "Error reading from file: name 'content' is not defined" ∧
    read_tool reDummy (write_tool [] "notes.txt" "hello").1 "notes.txt" ≠ "hello" ∧
    read_tool reDummy (write_tool [] "data.csv" "a,b\nc,d").1 "data.csv" =
      "a, b\nc, d" :=
  ⟨by decide, by decide, by decide⟩

/-- Elimination form of a successful `run_agents` round: the per-perspective
generations all succeeded over the single shared snapshot, their results are
aligned with the input perspective list, and the returned mapping is the dict
of the zipped pairs. -/
theorem run_agents_ok_elim (ctx : Ctx) (cs : List String) (u : String)
    (conv : List Msg) (entries : List (String × String))
    (h : run_agents ctx cs u conv = Except.ok entries) :
    ∃ results : List String,
      (cs.map fun c =>
        generate_response ctx ⟨c, u, conversationText conv, pyJoin ", " cs⟩) =
        results.map Except.ok ∧
      entries = pyDict (cs.zip results) := by
  unfold run_agents at h
  cases hg : gatherE (cs.map fun c =>
      generate_response ctx ⟨c, u, conversationText conv, pyJoin ", " cs⟩) with
  | error e => rw [hg] at h; simp [bind, Except.bind] at h
  | ok results =>
    rw [hg] at h
    simp only [bind, Except.bind, pure, Except.pure, Except.ok.injEq] at h
    exact ⟨results, gatherE_ok hg, h.symm⟩

/-- C7: during a round, the shared transcript is only ever extended — the new
history is the pre-round history plus the user message followed by the round's
entries — and every appended entry is attributed to a selected perspective and
is fully determined by the one shared snapshot taken at round start (so tool
output folded into an agent's local conversation is never observed by a
sibling, and nothing reaches the shared transcript before the whole round
completes). -/
theorem c7_round_isolation (ctx : Ctx) (history : List Msg) (u : String)
    (selected : List String) (nh : List Msg)
    (h : sidebarStep ctx history u selected = Except.ok nh) :
    ∃ tail, nh = withUser history u ++ tail ∧
      ∀ m ∈ tail, m.role ∈ selected ∧
        generate_response ctx
          ⟨m.role, u, conversationText (withUser history u), pyJoin ", " selected⟩ =
          Except.ok m.content := by
  unfold sidebarStep at h
  cases hra : run_agents ctx selected u (withUser history u) with
  | error e => rw [hra] at h; simp [bind, Except.bind] at h
  | ok entries =>
    rw [hra] at h
    simp only [bind, Except.bind, pure, Except.pure, Except.ok.injEq] at h
    refine ⟨entries.map (fun p => ⟨p.1, p.2⟩), h.symm, ?_⟩
    intro m hm
    rcases List.mem_map.mp hm with ⟨p, hp, hpm⟩
    rcases run_agents_ok_elim ctx selected u (withUser history u) entries hra with
      ⟨results, hmap, hent⟩
    have hpz : p ∈ selected.zip results := mem_pyDict (hent ▸ hp)
    have hrole : p.1 ∈ selected := (List.of_mem_zip hpz).1
    have hgen := zip_of_map_eq_map_ok _ selected results hmap p hpz
    rw [← hpm]
    exact ⟨hrole, hgen⟩

/-- C7 witness: a concrete two-perspective round. -/
theorem c7_witness :
    sidebarStep ctxPlain [] "hi" ["p1", "p2"] =
      Except.ok [⟨"user", "hi"⟩, ⟨"p1", "resp-p1"⟩, ⟨"p2", "resp-p2"⟩] ∧
    (∃ tail, ([⟨"user", "hi"⟩, ⟨"p1", "resp-p1"⟩, ⟨"p2", "resp-p2"⟩] : List Msg) =
        withUser [] "hi" ++ tail ∧
      ∀ m ∈ tail, m.role ∈ (["p1", "p2"] : List String) ∧
        generate_response ctxPlain
          ⟨m.role, "hi", conversationText (withUser [] "hi"), pyJoin ", " ["p1", "p2"]⟩ =
          Except.ok m.content) :=
  ⟨rfl, c7_round_isolation ctxPlain [] "hi" ["p1", "p2"]
    [⟨"user", "hi"⟩, ⟨"p1", "resp-p1"⟩, ⟨"p2", "resp-p2"⟩] rfl⟩

/-- C2 (amended): when the selected perspective labels are pairwise distinct,
a successful round appends exactly one transcript entry per perspective, in
the order of the input perspective list (the roles of the appended tail are
the input list itself); `asyncio.gather` delivers results in task order, so
this holds regardless of completion order. -/
theorem c2_round_appends_in_input_order (ctx : Ctx) (history : List Msg)
    (u : String) (selected : List String) (nh : List Msg)
    (hnd : selected.Nodup)
    (h : sidebarStep ctx history u selected = Except.ok nh) :
    ∃ tail, nh = withUser history u ++ tail ∧ tail.map Msg.role = selected := by
  unfold sidebarStep at h
  cases hra : run_agents ctx selected u (withUser history u) with
  | error e => rw [hra] at h; simp [bind, Except.bind] at h
  | ok entries =>
    rw [hra] at h
    simp only [bind, Except.bind, pure, Except.pure, Except.ok.injEq] at h
    refine ⟨entries.map (fun p => ⟨p.1, p.2⟩), h.symm, ?_⟩
    rcases run_agents_ok_elim ctx selected u (withUser history u) entries hra with
      ⟨results, hmap, hent⟩
    have hlen : selected.length ≤ results.length :=
      Nat.le_of_eq (length_of_map_eq_map_ok _ selected results hmap)
    have hfst : (selected.zip results).map Prod.fst = selected :=
      List.map_fst_zip selected results hlen
    have hzn : ((selected.zip results).map Prod.fst).Nodup := by rw [hfst]; exact hnd
    have hdict : pyDict (selected.zip results) = selected.zip results :=
      pyDict_of_nodup _ hzn
    rw [hent, hdict, List.map_map]
    exact hfst

/-- C2 witness: a concrete two-perspective round appends two entries, in input
order. -/
theorem c2_witness :
    (["p1", "p2"] : List String).Nodup ∧
    sidebarStep ctxPlain [] "hi" ["p1", "p2"] =
      Except.ok [⟨"user", "hi"⟩, ⟨"p1", "resp-p1"⟩, ⟨"p2", "resp-p2"⟩] ∧
    (∃ tail, ([⟨"user", "hi"⟩, ⟨"p1", "resp-p1"⟩, ⟨"p2", "resp-p2"⟩] : List Msg) =
        withUser [] "hi" ++ tail ∧ tail.map Msg.role = ["p1", "p2"]) :=
  ⟨by decide, rfl, c2_round_appends_in_input_order ctxPlain [] "hi" ["p1", "p2"]
    [⟨"user", "hi"⟩, ⟨"p1", "resp-p1"⟩, ⟨"p2", "resp-p2"⟩] (by decide) rfl⟩

/-- C2 counterexample to the claim as stated: a round over the duplicated
perspective list `["a", "a"]` appends a single entry — the dict built from
`zip(companies, results)` collapses equal labels — so the number of appended
entries (1) differs from the number of perspectives passed in (2). -/
theorem c2_counterexample_duplicate_labels :
    sidebarStep ctxPlain [] "hi" ["a", "a"] =
      Except.ok [⟨"user", "hi"⟩, ⟨"a", "resp-a"⟩] ∧
    ([⟨"a", "resp-a"⟩] : List Msg).length ≠ (["a", "a"] : List String).length :=
  ⟨rfl, by decide⟩

/-- C10: when the selected perspective list contains a repeated label, a
successful round appends one entry per distinct label (the appended roles are
pairwise distinct and range over exactly the selected labels), so the number
of appended entries is the number of distinct labels, strictly fewer than the
number of perspectives passed in; within the dict the later occurrence's
result overwrites the earlier one (`pyInsert` updates in place). -/
theorem c10_duplicate_labels_collapse (ctx : Ctx) (history : List Msg)
    (u : String) (selected : List String) (nh : List Msg)
    (hdup : ¬ selected.Nodup)
    (h : sidebarStep ctx history u selected = Except.ok nh) :
    ∃ tail, nh = withUser history u ++ tail ∧
      (tail.map Msg.role).Nodup ∧
      (∀ k, k ∈ tail.map Msg.role ↔ k ∈ selected) ∧
      tail.length = selected.dedup.length ∧
      selected.dedup.length < selected.length := by
  unfold sidebarStep at h
  cases hra : run_agents ctx selected u (withUser history u) with
  | error e => rw [hra] at h; simp [bind, Except.bind] at h
  | ok entries =>
    rw [hra] at h
    simp only [bind, Except.bind, pure, Except.pure, Except.ok.injEq] at h
    refine ⟨entries.map (fun p => ⟨p.1, p.2⟩), h.symm, ?_⟩
    rcases run_agents_ok_elim ctx selected u (withUser history u) entries hra with
      ⟨results, hmap, hent⟩
    have hlen : selected.length ≤ results.length :=
      Nat.le_of_eq (length_of_map_eq_map_ok _ selected results hmap)
    have hfst : (selected.zip results).map Prod.fst = selected :=
      List.map_fst_zip selected results hlen
    have hroles : (entries.map (fun p => (⟨p.1, p.2⟩ : Msg))).map Msg.role =
        entries.map Prod.fst := by
      rw [List.map_map]
      rfl
    refine ⟨?_, ?_, ?_, dedup_length_lt_of_not_nodup hdup⟩
    · rw [hroles, hent]
      exact keys_pyDict_nodup _
    · intro k
      rw [hroles, hent, mem_keys_pyDict, hfst]
    · rw [List.length_map, hent, length_pyDict, hfst]

/-- C10 witness: a round over `["a", "a"]` appends exactly one entry. -/
theorem c10_witness :
    ¬ (["a", "a"] : List String).Nodup ∧
    sidebarStep ctxPlain [] "hi" ["a", "a"] =
      Except.ok [⟨"user", "hi"⟩, ⟨"a", "resp-a"⟩] ∧
    (∃ tail, ([⟨"user", "hi"⟩, ⟨"a", "resp-a"⟩] : List Msg) =
        withUser [] "hi" ++ tail ∧
      (tail.map Msg.role).Nodup ∧
      (∀ k, k ∈ tail.map Msg.role ↔ k ∈ (["a", "a"] : List String)) ∧
      tail.length = (["a", "a"] : List String).dedup.length ∧
      (["a", "a"] : List String).dedup.length < (["a", "a"] : List String).length) :=
  ⟨by decide, rfl, c10_duplicate_labels_collapse ctxPlain [] "hi" ["a", "a"]
    [⟨"user", "hi"⟩, ⟨"a", "resp-a"⟩] (by decide) rfl⟩

